import Mathlib

/-
Verification of the action-creator / reducer binding protocol described by
the redux-act type declarations and exercised by the test fixtures in this
repository.  The runtime implementation of the library is not part of the
repository (only its declaration file and tests are), so the operational
definitions below are modelled from the specification and from the concrete
behaviours asserted by the tests and by the documentation examples embedded
in the declaration file.
-/

set_option autoImplicit false

namespace ReduxAct

/-- Modelled from the spec: JS-like runtime values.  A Message (action) is a
`vmsg tag payload meta` value; `vundefined` plays the role of JS `undefined`
(absent metadata, absent default state); `vlist` is a JS array, used for the
payload of a batch action, which is an ordered sequence of Messages. -/
inductive Val : Type where
  | vint : Int → Val
  | vstr : String → Val
  | vundefined : Val
  | vlist : List Val → Val
  | vmsg : String → Val → Val → Val

/-- Is this value JS `undefined`? -/
def Val.isUndefined : Val → Bool
  | .vundefined => true
  | _ => false

/-- Modelled from the spec: the body of a state-transition handler, as the
small expression language needed by the handlers appearing in the tests and
doc examples.  `st` is the state argument, `a2`/`a3` the second and third
arguments supplied by `reduce` (payload/metadata, or the whole message when
the registry passes full messages). -/
inductive Expr : Type where
  | st : Expr
  | a2 : Expr
  | a3 : Expr
  | lit : Val → Expr
  | eadd : Expr → Expr → Expr
  | esub : Expr → Expr → Expr
  | emul : Expr → Expr → Expr
  | ediv : Expr → Expr → Expr
  | epayload : Expr → Expr

/-- Numeric binary operation, `vundefined` on non-numbers (JS NaN-ish). -/
def numOp (f : Int → Int → Int) (v w : Val) : Val :=
  match v, w with
  | .vint a, .vint b => .vint (f a b)
  | _, _ => .vundefined

/-- Evaluate a handler body in the environment (state, arg2, arg3). -/
def evalE : Expr → Val → Val → Val → Val
  | .st, s, _, _ => s
  | .a2, _, x, _ => x
  | .a3, _, _, y => y
  | .lit v, _, _, _ => v
  | .eadd e1 e2, s, x, y => numOp (· + ·) (evalE e1 s x y) (evalE e2 s x y)
  | .esub e1 e2, s, x, y => numOp (· - ·) (evalE e1 s x y) (evalE e2 s x y)
  | .emul e1 e2, s, x, y => numOp (· * ·) (evalE e1 s x y) (evalE e2 s x y)
  | .ediv e1 e2, s, x, y => numOp (· / ·) (evalE e1 s x y) (evalE e2 s x y)
  | .epayload e, s, x, y =>
    match evalE e s x y with
    | .vmsg _ p _ => p
    | _ => .vundefined

mutual
/-- Modelled from the spec: a registered handler.  An ordinary handler
(`mk effs e`) may register/deregister handlers on its hosting registry
(the `effs` side effects, as in the funky reducer of the tests) and returns
the state computed by `e`.  `hbatch` is the built-in batch handler, which
folds the registry over the contained messages. -/
inductive Handler : Type where
  | mk : List Effect → Expr → Handler
  | hbatch : Handler

/-- An `on`/`off` call performed by a handler body on its own registry. -/
inductive Effect : Type where
  | eon : String → Handler → Effect
  | eoff : String → Effect
end

/-- A pure handler: no registry mutation, just a state transition. -/
def hfun (e : Expr) : Handler := .mk [] e

/-- The handler table: a mapping from tag to handler. -/
abbrev Table := List (String × Handler)

/-- Look up the handler registered for a tag. -/
def lookupT : Table → String → Option Handler
  | [], _ => none
  | (k2, h) :: rest, k => if k2 = k then some h else lookupT rest k

/-- Remove the entry for a tag (`off`; no-op when absent). -/
def removeT : Table → String → Table
  | [], _ => []
  | a :: rest, k => if a.1 = k then removeT rest k else a :: removeT rest k

/-- Set/overwrite the entry for a tag (`on` overwrites silently). -/
def setT (t : Table) (k : String) (h : Handler) : Table :=
  (k, h) :: removeT t k

/-- Add an entry only when the tag has none yet (used for the built-in
batch handler, which a user-supplied entry overrides). -/
def setIfAbsentT (t : Table) (k : String) (h : Handler) : Table :=
  match lookupT t k with
  | some _ => t
  | none => t ++ [(k, h)]

/-- Apply one handler-issued `on`/`off` mutation to the table. -/
def applyEffect (t : Table) : Effect → Table
  | .eon k h => setT t k h
  | .eoff k => removeT t k

/-- Apply the mutations issued by a handler body, in order. -/
def applyEffects (effs : List Effect) (t : Table) : Table :=
  effs.foldl applyEffect t

/-- Modelled from the spec: a Reducer Registry — the mutable handler table,
the `options({payload})` flag (`optPayload = true`, the default, passes
payload and metadata separately; `false` passes the whole message), and the
default state. -/
structure RegObj where
  table : Table
  optPayload : Bool
  dflt : Val

/-- JS parameter defaulting: `reduce(state = defaultState, action)`. -/
def orDefault (d s : Val) : Val := if s.isUndefined then d else s

/-- Modelled from the spec: the tag of the built-in batch action creator
(an explicit serializable-style constant; the exact string is internal to
the absent implementation). -/
def batchTag : String := "BATCH"

mutual
/-- Modelled from the spec: one reduction step.  Looks up the message tag in
the table; if absent the state is returned unchanged.  An ordinary handler
is applied to the arguments selected by the `optPayload` flag and its
`on`/`off` effects mutate the table of the returned registry (they cannot
affect the lookup already performed for this call).  The batch handler
left-folds `reduce` of the hosting registry over the contained messages. -/
def reduce (reg : RegObj) (state : Val) (msg : Val) : Val × RegObj :=
  match msg with
  | .vmsg tag payload meta =>
    let s0 := orDefault reg.dflt state
    match lookupT reg.table tag with
    | none => (s0, reg)
    | some (.mk effs e) =>
      let x := if reg.optPayload then payload else msg
      let y := if reg.optPayload then meta else .vundefined
      (evalE e s0 x y, { reg with table := applyEffects effs reg.table })
    | some .hbatch =>
      if reg.optPayload then
        match payload with
        | .vlist msgs => reduceList reg s0 msgs
        | _ => (s0, reg)
      else (s0, reg)
  | _ => (orDefault reg.dflt state, reg)
termination_by sizeOf msg

/-- Sequential left fold of `reduce` over a list of messages: message i+1 is
reduced against the state produced by message i, threading the registry so
that handler-issued mutations are visible to subsequent lookups. -/
def reduceList (reg : RegObj) (state : Val) (msgs : List Val) : Val × RegObj :=
  match msgs with
  | [] => (state, reg)
  | m :: rest =>
    let r := reduce reg state m
    reduceList r.2 r.1 rest
termination_by sizeOf msgs
end

/-- Modelled from the spec: `createReducer` from a mapping of tag to
handler.  The built-in batch handler is pre-registered unless the mapping
already carries an entry for the batch tag (the tests show a user entry for
the batch tag overrides the built-in one). -/
def createReducerMap (m : Table) (d : Val) : RegObj :=
  { table := setIfAbsentT m batchTag .hbatch, optPayload := true, dflt := d }

/-- Modelled from the spec: `createReducer` from a setup function receiving
`(on, off)`, invoked exactly once at construction; the straight-line calls
it performs are the listed effects. -/
def createReducerFn (effs : List Effect) (d : Val) : RegObj :=
  { table := setIfAbsentT (applyEffects effs []) batchTag .hbatch,
    optPayload := true, dflt := d }

/-- The call `reducer.options` with the payload flag b: store it verbatim. -/
def setOptions (reg : RegObj) (b : Bool) : RegObj := { reg with optPayload := b }

/-- The call `reducer.on(tag, handler)` after construction. -/
def regOn (reg : RegObj) (k : String) (h : Handler) : RegObj :=
  { reg with table := setT reg.table k h }

/-- The call `reducer.off(tag)` after construction. -/
def regOff (reg : RegObj) (k : String) : RegObj :=
  { reg with table := removeT reg.table k }

/-- The membership predicate `reducer.has(tag)`. -/
def regHas (reg : RegObj) (k : String) : Bool := (lookupT reg.table k).isSome

/-
The tests build a reducer from a mapping object and then mutate that very
object (`handlers[inc.toString()] = ...`, `delete handlers[...]`), and the
mutations are visible to subsequent reduce calls: the registry holds the
caller's mapping by reference.  To express this aliasing, a heap of handler
tables is modelled; a constructed reducer holds the address of the mapping.
-/

/-- Positional lookup in a list. -/
def nth {α : Type} : List α → Nat → Option α
  | [], _ => none
  | a :: _, 0 => some a
  | _ :: rest, n + 1 => nth rest n

/-- Positional overwrite in a list (no-op when out of range). -/
def setNth {α : Type} : List α → Nat → α → List α
  | [], _, _ => []
  | _ :: rest, 0, b => b :: rest
  | a :: rest, n + 1, b => a :: setNth rest n b

/-- A heap of handler tables, addressed by position. -/
abbrev Heap := List Table

/-- Read the table at an address (empty when out of range). -/
def heapGet (h : Heap) (a : Nat) : Table := (nth h a).getD []

/-- Overwrite the table at an address. -/
def heapSet (h : Heap) (a : Nat) (t : Table) : Heap := setNth h a t

/-- A reducer that references its handler mapping through the heap. -/
structure ReducerRef where
  addr : Nat
  dflt : Val

/-- Construction from the mapping living at address `a`: pre-registers the
batch handler into that very mapping unless present, and keeps the
address (not a copy). -/
def createReducerRef (h : Heap) (a : Nat) (d : Val) : Heap × ReducerRef :=
  (heapSet h a (setIfAbsentT (heapGet h a) batchTag .hbatch), { addr := a, dflt := d })

/-- A reduce call on a reference-holding reducer: the handler table is read
from the heap at call time, and handler-issued mutations are written back. -/
def reduceH (h : Heap) (r : ReducerRef) (s : Val) (msg : Val) : Val × Heap :=
  let out := reduce { table := heapGet h r.addr, optPayload := true, dflt := r.dflt } s msg
  (out.1, heapSet h r.addr out.2.table)

/-- The caller mutates its mapping object: add/overwrite an entry. -/
def mapAdd (h : Heap) (a : Nat) (k : String) (hd : Handler) : Heap :=
  heapSet h a (setT (heapGet h a) k hd)

/-- The caller mutates its mapping object: delete an entry. -/
def mapDelete (h : Heap) (a : Nat) (k : String) : Heap :=
  heapSet h a (removeT (heapGet h a) k)

/-- Modelled from the spec: an Action Creator's dispatch association. -/
inductive Assoc : Type where
  | noAssoc : Assoc
  | assignedTo : List Nat → Assoc
  | boundTo : List Nat → Assoc

/-- Modelled from the spec: an Action Creator — a fixed tag, a payload
transform over the call arguments, a metadata transform (returning `vundefined`
when none was given), and the mutable dispatch association. -/
structure Creator where
  tag : String
  payloadT : List Val → Val
  metaT : List Val → Val
  assoc : Assoc

/-- Default payload transform: the first call argument. -/
def defaultPayloadT (args : List Val) : Val := args.headD .vundefined

/-- Absent metadata transform. -/
def noMetaT : List Val → Val := fun _ => .vundefined

/-- Build the Message an invocation constructs from the call arguments. -/
def buildMsg (c : Creator) (args : List Val) : Val :=
  .vmsg c.tag (c.payloadT args) (c.metaT args)

/-- A Dispatch Target: a store holding the index of its reducer registry and
its current observable state. -/
structure StoreObj where
  regRef : Nat
  state : Val

/-- The world: the live reducer registries and stores. -/
structure World where
  regs : List RegObj
  stores : List StoreObj

/-- Dispatch one Message to one store: run its registry's reduce on its
current state, store the new state, and keep the registry's (possibly
handler-mutated) table. -/
def dispatchTo (w : World) (t : Nat) (msg : Val) : World :=
  match nth w.stores t with
  | none => w
  | some st =>
    match nth w.regs st.regRef with
    | none => w
    | some reg =>
      let out := reduce reg st.state msg
      { regs := setNth w.regs st.regRef out.2,
        stores := setNth w.stores t { st with state := out.1 } }

/-- Fan-out: dispatch the same Message to every target in list order, each
target's reduction completing before the next dispatch. -/
def dispatchAll (w : World) (ts : List Nat) (msg : Val) : World :=
  ts.foldl (fun w2 t => dispatchTo w2 t msg) w

/-- Modelled from the spec: invoking a creator builds the Message; with no
association it only returns it, otherwise it also dispatches it to every
associated target in order and still returns it. -/
def invoke (c : Creator) (w : World) (args : List Val) : Val × World :=
  let msg := buildMsg c args
  match c.assoc with
  | .noAssoc => (msg, w)
  | .assignedTo ts => (msg, dispatchAll w ts msg)
  | .boundTo ts => (msg, dispatchAll w ts msg)

/-- Modelled from the spec: `raw(...args)` builds and returns the Message
exactly as invocation would, and never dispatches. -/
def rawCall (c : Creator) (w : World) (args : List Val) : Val × World :=
  (buildMsg c args, w)

/-- The method `bindTo`: a NEW creator sharing tag and transforms, `BoundTo` the
targets; the receiver is not modified. -/
def bindTo (c : Creator) (ts : List Nat) : Creator :=
  { c with assoc := .boundTo ts }

/-- The method `assignTo`: set the receiver's association to the targets. -/
def assignTo (c : Creator) (ts : List Nat) : Creator :=
  { c with assoc := .assignedTo ts }

/-- The `assigned()` predicate. -/
def isAssigned (c : Creator) : Bool :=
  match c.assoc with
  | .assignedTo _ => true
  | _ => false

/-- The `bound()` predicate. -/
def isBound (c : Creator) : Bool :=
  match c.assoc with
  | .boundTo _ => true
  | _ => false

/-- Is this character allowed in a serializable description
(all-caps / underscore / digit)? -/
def isSerialChar (ch : Char) : Bool := ch.isUpper || ch.isDigit || ch = '_'

/-- Modelled from the spec: a description matching the all-caps/underscore/
digit pattern is used verbatim as a serializable tag. -/
def isSerializable (s : String) : Bool :=
  s.length > 0 && s.data.all isSerialChar

/-- The decimal digit character for `n < 10`. -/
def digitChar (n : Nat) : Char := Char.ofNat (48 + n)

/-- The numeric value of a digit character. -/
def digitVal (ch : Char) : Nat := ch.toNat - 48

/-- Decimal digits of a number, most significant first. -/
def natDigits (n : Nat) : List Char :=
  if n < 10 then [digitChar n]
  else natDigits (n / 10) ++ [digitChar (n % 10)]
termination_by n
decreasing_by exact Nat.div_lt_self (by omega) (by omega)

/-- Read a digit list back as a number. -/
def digitsToNat (l : List Char) : Nat :=
  l.foldl (fun acc ch => 10 * acc + digitVal ch) 0

/-- Modelled from the spec: the tag synthesized for a creator whose
description is absent or not serializable — the monotonically increasing
sequence number combined with the description, as in the declaration file's
examples `[1] Add todo`, `[2] Edit todo`. -/
def mkGenTag (n : Nat) (desc : Option String) : String :=
  String.mk ('[' :: natDigits n ++ ']' ::
    match desc with
    | none => []
    | some d => ' ' :: d.data)

/-- Recover the sequence number embedded in a generated tag. -/
def tagNum (s : String) : Nat :=
  digitsToNat ((s.data.drop 1).takeWhile Char.isDigit)

/-- Modelled from the spec: the process-wide Tag Registry — the set of tags
in use plus the generator counter. -/
structure TypesState where
  used : List String
  counter : Nat

/-- The registry at process start. -/
def initialTypes : TypesState := { used := [], counter := 0 }

/-- The outcome of constructing an action creator: the tag it received, or
the DuplicateTagError naming the colliding tag. -/
inductive CResult : Type where
  | ok : String → CResult
  | dupError : String → CResult

/-- Modelled from the spec: tag derivation at creator construction.  A
serializable description is used verbatim and must not already be
registered — otherwise construction fails with a DuplicateTagError and the
registry is left untouched.  Any other request gets a synthesized tag from
the incremented counter, registered without any collision check. -/
def createActionTag (desc : Option String) (ts : TypesState) : CResult × TypesState :=
  match desc with
  | some d =>
    if isSerializable d then
      if d ∈ ts.used then (.dupError d, ts)
      else (.ok d, { ts with used := d :: ts.used })
    else
      let tag := mkGenTag (ts.counter + 1) (some d)
      (.ok tag, { used := tag :: ts.used, counter := ts.counter + 1 })
  | none =>
    let tag := mkGenTag (ts.counter + 1) none
    (.ok tag, { used := tag :: ts.used, counter := ts.counter + 1 })

/-- Construct a sequence of creators, threading the Tag Registry. -/
def createMany (descs : List (Option String)) (ts : TypesState) : List CResult × TypesState :=
  match descs with
  | [] => ([], ts)
  | d :: rest =>
    let r := createActionTag d ts
    let rr := createMany rest r.2
    (r.1 :: rr.1, rr.2)

/-- The tags the generated branch hands out to a request list, starting
after counter `c`. -/
def genTags (c : Nat) : List (Option String) → List String
  | [] => []
  | d :: rest => mkGenTag (c + 1) d :: genTags (c + 1) rest

/-- A construction request that does not take the serializable branch. -/
def nonSerialReq : Option String → Prop
  | none => True
  | some d => isSerializable d = false

/-
Concrete instances, taken from the test files and the documentation
examples embedded in the declaration file.
-/

/-- Generated tag of the first demo creator (`inc` in the tests). -/
def incTagD : String := "[1]"

/-- Generated tag of the second demo creator (`dec` in the tests). -/
def decTagD : String := "[2]"

/-- Generated tag of the `add` creator in the tests. -/
def addTagD : String := "[3]"

/-- Generated tag of the `sub` creator in the tests. -/
def subTagD : String := "[4]"

/-- The handler `state => state + 1`. -/
def incHandler : Handler := hfun (.eadd .st (.lit (.vint 1)))

/-- The handler `state => state - 1`. -/
def decHandler : Handler := hfun (.esub .st (.lit (.vint 1)))

/-- The handler that adds the payload to the state. -/
def addPayloadH : Handler := hfun (.eadd .st .a2)

/-- The handler that subtracts the payload from the state. -/
def subPayloadH : Handler := hfun (.esub .st .a2)

/-- The handler `(state, action) => state + action.payload` (full-message shape). -/
def fullAddH : Handler := hfun (.eadd .st (.epayload .a2))

/-- The mapping `{inc: s=>s+1, dec: s=>s-1}` of the batch doc example. -/
def demoTable : Table := [(incTagD, incHandler), (decTagD, decHandler)]

/-- The registry of the batch doc example, default state 0. -/
def demoReg : RegObj := createReducerMap demoTable (.vint 0)

/-- A Message with no payload, as produced by `inc()` / `dec()`. -/
def tagMsg (t : String) : Val := .vmsg t .vundefined .vundefined

/-- A Message with a payload, as produced by `add(n)`. -/
def payloadMsg (t : String) (p : Val) : Val := .vmsg t p .vundefined

/-- The Message produced by `batch(m1, ..., mk)`. -/
def batchMsgOf (l : List Val) : Val := .vmsg batchTag (.vlist l) .vundefined

/-- The funky reducer's setup calls: `increment` removes `add` support and
installs `sub`; `decrement` removes `sub` support and installs `add`
(bindAll.test.ts, `funkyReducer`). -/
def funkyEffects : List Effect :=
  [.eon incTagD (.mk [.eoff addTagD, .eon subTagD subPayloadH] (.eadd .st (.lit (.vint 1)))),
   .eon decTagD (.mk [.eoff subTagD, .eon addTagD addPayloadH] (.esub .st (.lit (.vint 1))))]

/-- The funky reducer, default state 0. -/
def funkyReg : RegObj := createReducerFn funkyEffects (.vint 0)

/-- One store-dispatch step threading state and registry. -/
def stepR (x : Val × RegObj) (m : Val) : Val × RegObj := reduce x.2 x.1 m

/-- Run a sequence of dispatches against the funky reducer from state 0. -/
def funkyRun (ms : List Val) : Val × RegObj := ms.foldl stepR (.vint 0, funkyReg)

/-- The dispatch sequence of the `on and off inside factory function` test. -/
def funkySeq : List Val :=
  [payloadMsg addTagD (.vint 5), payloadMsg subTagD (.vint 6),
   tagMsg incTagD, tagMsg incTagD,
   payloadMsg subTagD (.vint 5), payloadMsg addTagD (.vint 3),
   tagMsg decTagD,
   payloadMsg subTagD (.vint 10), payloadMsg addTagD (.vint 6)]

/-- The options test's registry: `{add: (state, action) => state + action.payload}`
with `options({payload: false})` applied, default state 0. -/
def optReg0 : RegObj := setOptions (createReducerMap [(addTagD, fullAddH)] (.vint 0)) false

/-- Step `add(3)` under full-message mode. -/
def opt1 : Val × RegObj := reduce optReg0 (.vint 0) (payloadMsg addTagD (.vint 3))

/-- Step `add(2)` under full-message mode. -/
def opt2 : Val × RegObj := reduce opt1.2 opt1.1 (payloadMsg addTagD (.vint 2))

/-- Steps `reducer.on(add, (state, payload) => state + payload)` then options with payload true. -/
def optReg1 : RegObj := setOptions (regOn opt2.2 addTagD addPayloadH) true

/-- Step `add(-4)` under payload mode. -/
def opt3 : Val × RegObj := reduce optReg1 opt2.1 (payloadMsg addTagD (.vint (-4)))

/-- Step `add(10)` under payload mode. -/
def opt4 : Val × RegObj := reduce opt3.2 opt3.1 (payloadMsg addTagD (.vint 10))

/-- Steps `reducer.on(add, (state, action) => state + action.payload)` then options with payload false. -/
def optReg2 : RegObj := setOptions (regOn opt4.2 addTagD fullAddH) false

/-- Step `add(30)` back under full-message mode. -/
def opt5 : Val × RegObj := reduce optReg2 opt4.1 (payloadMsg addTagD (.vint 30))

/-- Step `add(1)` back under full-message mode. -/
def opt6 : Val × RegObj := reduce opt5.2 opt5.1 (payloadMsg addTagD (.vint 1))

/-- The handler `state => state * 2` (the `action` handler of the assignTo doc example). -/
def mulH : Handler := hfun (.emul .st (.lit (.vint 2)))

/-- The handler `state => state / 2` (the `action2` handler of the assignTo doc example). -/
def divH : Handler := hfun (.ediv .st (.lit (.vint 2)))

/-- The registry of the assignTo/bindTo doc example. -/
def mulReg : RegObj := createReducerMap [(incTagD, mulH), (decTagD, divH)] .vundefined

/-- The world of that example: one registry, `store` at state 1 and
`store2` at state -1, both backed by the same registry. -/
def mulWorld : World :=
  { regs := [mulReg],
    stores := [{ regRef := 0, state := .vint 1 }, { regRef := 0, state := .vint (-1) }] }

/-- Creator `action` (doubles the state), assigned to `store`. -/
def act1 : Creator :=
  { tag := incTagD, payloadT := defaultPayloadT, metaT := noMetaT, assoc := .assignedTo [0] }

/-- Creator `action2` (halves the state), unassigned. -/
def act2 : Creator :=
  { tag := decTagD, payloadT := defaultPayloadT, metaT := noMetaT, assoc := .noAssoc }

/-- After `action()`: store at 2. -/
def mw1 : World := (invoke act1 mulWorld []).2

/-- After `action()`: store at 4. -/
def mw2 : World := (invoke act1 mw1 []).2

/-- After `action()`: store at 8. -/
def mw3 : World := (invoke act1 mw2 []).2

/-- Step `action.assignTo([store, store2])`. -/
def act1Both : Creator := assignTo act1 [0, 1]

/-- After `action()` with both stores: 16 and -2. -/
def mw4 : World := (invoke act1Both mw3 []).2

/-- After `action2()` while unassigned: nothing happens. -/
def mw5 : World := (invoke act2 mw4 []).2

/-- Step `boundAction = action2.bindTo(store)`. -/
def bact2 : Creator := bindTo act2 [0]

/-- After `boundAction()`: store at 8, store2 untouched. -/
def mw6 : World := (invoke bact2 mw5 []).2

/-- The observable states of all stores. -/
def storeStates (w : World) : List Val := w.stores.map StoreObj.state

/-- The dynamic-actions test: the caller's empty mapping object, on the heap. -/
def heap0 : Heap := [[]]

/-- The call `createReducer(handlers, 0)` over the shared mapping at address 0. -/
def heapCtor : Heap × ReducerRef := createReducerRef heap0 0 (.vint 0)

/-- The heap right after construction. -/
def heapA : Heap := heapCtor.1

/-- The constructed reducer, referencing the mapping at address 0. -/
def dynRef : ReducerRef := heapCtor.2

/-- Mutation `handlers[inc.toString()] = state => state + 1` after construction. -/
def heapB : Heap := mapAdd heapA 0 incTagD incHandler

/-- First `inc()` after the mapping gained the handler. -/
def dyn1 : Val × Heap := reduceH heapB dynRef (.vint 0) (tagMsg incTagD)

/-- Second `inc()`. -/
def dyn2 : Val × Heap := reduceH dyn1.2 dynRef dyn1.1 (tagMsg incTagD)

/-- Third `inc()`. -/
def dyn3 : Val × Heap := reduceH dyn2.2 dynRef dyn2.1 (tagMsg incTagD)

/-- Mutation `delete handlers[inc.toString()]`. -/
def heapC : Heap := mapDelete dyn3.2 0 incTagD

/-- Step `inc()` after the deletion: no handler runs. -/
def dyn4 : Val × Heap := reduceH heapC dynRef dyn3.1 (tagMsg incTagD)

/-- Step `inc()` again after the deletion. -/
def dyn5 : Val × Heap := reduceH dyn4.2 dynRef dyn4.1 (tagMsg incTagD)

/-- The call `createReducer()` with no handlers and no default state. -/
def emptyReducer : RegObj := createReducerMap [] .vundefined

/-- A store created over the empty reducer: its state is `undefined`. -/
def emptyWorld : World :=
  { regs := [emptyReducer], stores := [{ regRef := 0, state := .vundefined }] }

/-
Helper lemmas about the handler table and the reduction step.
-/

theorem lookupT_removeT_self (t : Table) (k : String) :
    lookupT (removeT t k) k = none := by
  induction t with
  | nil => rfl
  | cons a rest ih =>
    by_cases h : a.1 = k
    · simpa [removeT, h] using ih
    · simpa [removeT, lookupT, h] using ih

theorem lookupT_removeT_ne (t : Table) (k k2 : String) (h : k2 ≠ k) :
    lookupT (removeT t k) k2 = lookupT t k2 := by
  induction t with
  | nil => rfl
  | cons a rest ih =>
    show lookupT (if a.1 = k then removeT rest k else a :: removeT rest k) k2
      = lookupT (a :: rest) k2
    by_cases ha : a.1 = k
    · have hk2 : ¬a.1 = k2 := fun hk => h (by rw [← hk, ha])
      rw [if_pos ha, ih]
      show _ = if a.1 = k2 then some a.2 else lookupT rest k2
      rw [if_neg hk2]
    · rw [if_neg ha]
      show (if a.1 = k2 then some a.2 else lookupT (removeT rest k) k2)
        = if a.1 = k2 then some a.2 else lookupT rest k2
      rw [ih]

theorem lookupT_setT_self (t : Table) (k : String) (hd : Handler) :
    lookupT (setT t k hd) k = some hd := by
  simp [setT, lookupT]

theorem lookupT_setT_ne (t : Table) (k k2 : String) (hd : Handler) (h : k2 ≠ k) :
    lookupT (setT t k hd) k2 = lookupT t k2 := by
  have : k ≠ k2 := fun hk => h hk.symm
  simp [setT, lookupT, this, lookupT_removeT_ne t k k2 h]

/-- Reduction with an ordinary handler: the looked-up handler computes the
new state from the pre-call state, and its `on`/`off` effects mutate the
table of the returned registry. -/
theorem reduce_plain (reg : RegObj) (s p meta : Val) (tag : String)
    (effs : List Effect) (e : Expr)
    (hl : lookupT reg.table tag = some (.mk effs e)) :
    reduce reg s (.vmsg tag p meta)
      = (evalE e (orDefault reg.dflt s)
           (if reg.optPayload then p else .vmsg tag p meta)
           (if reg.optPayload then meta else .vundefined),
         { reg with table := applyEffects effs reg.table }) := by
  cases p with
  | vlist msgs => rw [reduce.eq_1, hl]
  | vint n => rw [reduce.eq_2 _ _ _ _ _ (fun _ h => by cases h), hl]
  | vstr a => rw [reduce.eq_2 _ _ _ _ _ (fun _ h => by cases h), hl]
  | vundefined => rw [reduce.eq_2 _ _ _ _ _ (fun _ h => by cases h), hl]
  | vmsg a b c => rw [reduce.eq_2 _ _ _ _ _ (fun _ h => by cases h), hl]

/-- Reduction of a message whose tag has no handler is the identity. -/
theorem reduce_none (reg : RegObj) (s p meta : Val) (tag : String)
    (hl : lookupT reg.table tag = none) :
    reduce reg s (.vmsg tag p meta) = (orDefault reg.dflt s, reg) := by
  cases p with
  | vlist msgs => rw [reduce.eq_1, hl]
  | vint n => rw [reduce.eq_2 _ _ _ _ _ (fun _ h => by cases h), hl]
  | vstr a => rw [reduce.eq_2 _ _ _ _ _ (fun _ h => by cases h), hl]
  | vundefined => rw [reduce.eq_2 _ _ _ _ _ (fun _ h => by cases h), hl]
  | vmsg a b c => rw [reduce.eq_2 _ _ _ _ _ (fun _ h => by cases h), hl]

/-- Reduction of a non-message value is the identity. -/
theorem reduce_other (reg : RegObj) (s msg : Val)
    (hm : ∀ (tag : String) (p meta : Val), msg = .vmsg tag p meta → False) :
    reduce reg s msg = (orDefault reg.dflt s, reg) :=
  reduce.eq_3 reg s msg hm

/-- Reduction with the batch handler under the default calling convention
is the sequential fold of `reduce` over the contained messages. -/
theorem reduce_batch (reg : RegObj) (s meta : Val) (tag : String) (msgs : List Val)
    (hp : reg.optPayload = true)
    (hl : lookupT reg.table tag = some .hbatch) :
    reduce reg s (.vmsg tag (.vlist msgs) meta)
      = reduceList reg (orDefault reg.dflt s) msgs := by
  rw [reduce.eq_1, hl]
  simp [hp]

/-- C7: for every registry, every state s, and every message whose tag has
no entry in the handler table, `reduce(s, message)` returns s unchanged
(and, being a total function, never raises). -/
theorem c7_unknown_tag_identity (reg : RegObj) (s p meta : Val) (tag : String)
    (hl : lookupT reg.table tag = none) (hs : s.isUndefined = false) :
    reduce reg s (.vmsg tag p meta) = (s, reg) := by
  rw [reduce_none reg s p meta tag hl]
  simp [orDefault, hs]

/-- Witness for C7 at the registry of the batch doc example and an unknown
tag: the state comes back unchanged. -/
theorem c7_witness :
    lookupT demoReg.table "UNKNOWN" = none
  ∧ (Val.vint 5).isUndefined = false
  ∧ reduce demoReg (.vint 5) (.vmsg "UNKNOWN" .vundefined .vundefined) = (.vint 5, demoReg) :=
  ⟨rfl, rfl, c7_unknown_tag_identity demoReg (.vint 5) .vundefined .vundefined "UNKNOWN" rfl rfl⟩

/-- C1: the batch handler performs a strictly sequential, ordered left fold
of the hosting registry's reduce over the contained Messages — message i+1
is reduced against the state produced by message i — and on the doc
example's registry, `reduce(0, batch(incMsg, incMsg, decMsg))` yields 1. -/
theorem c1_batch_sequential_fold :
    (∀ (reg : RegObj) (s meta : Val) (tag : String) (msgs : List Val),
        reg.optPayload = true →
        lookupT reg.table tag = some .hbatch →
        reduce reg s (.vmsg tag (.vlist msgs) meta)
          = reduceList reg (orDefault reg.dflt s) msgs)
  ∧ (∀ (reg : RegObj) (s m : Val) (rest : List Val),
        reduceList reg s (m :: rest)
          = reduceList (reduce reg s m).2 (reduce reg s m).1 rest)
  ∧ (reduce demoReg (.vint 0)
        (batchMsgOf [tagMsg incTagD, tagMsg incTagD, tagMsg decTagD])).1 = .vint 1 := by
  refine ⟨fun reg s meta tag msgs hp hl => reduce_batch reg s meta tag msgs hp hl, ?_, ?_⟩
  · intro reg s m rest
    rw [reduceList]
  · simp [demoReg, demoTable, createReducerMap, setIfAbsentT, lookupT, batchTag, incTagD,
      decTagD, tagMsg, batchMsgOf, hfun, incHandler, decHandler, reduce, reduceList,
      orDefault, Val.isUndefined, evalE, numOp, applyEffects]

/-- Witness for C1 at the doc example's registry: the batch handler is
registered there, the default convention holds, and the fold equation
applies to the inc/inc/dec batch. -/
theorem c1_witness :
    demoReg.optPayload = true
  ∧ lookupT demoReg.table batchTag = some .hbatch
  ∧ reduce demoReg (.vint 0)
        (.vmsg batchTag (.vlist [tagMsg incTagD, tagMsg incTagD, tagMsg decTagD]) .vundefined)
      = reduceList demoReg (orDefault demoReg.dflt (.vint 0))
          [tagMsg incTagD, tagMsg incTagD, tagMsg decTagD] :=
  ⟨rfl, rfl,
    c1_batch_sequential_fold.1 demoReg (.vint 0) .vundefined batchTag
      [tagMsg incTagD, tagMsg incTagD, tagMsg decTagD] rfl rfl⟩

/-- C2: a handler's own `on`/`off` mutations take effect only for
subsequent reduce calls — the in-flight call computes the same state it
would with the mutation-free handler, while the returned registry carries
the mutated table; `on` after construction routes subsequent calls through
the new handler, `off` stops routing for subsequent calls; and the funky
reducer test runs exactly as asserted. -/
theorem c2_mutation_next_call :
    (∀ (reg : RegObj) (s p meta : Val) (tag : String) (effs : List Effect) (e : Expr),
        lookupT reg.table tag = some (.mk effs e) →
        (reduce reg s (.vmsg tag p meta)).1
            = (reduce { reg with table := setT reg.table tag (.mk [] e) } s
                 (.vmsg tag p meta)).1
          ∧ (reduce reg s (.vmsg tag p meta)).2.table = applyEffects effs reg.table)
  ∧ (∀ (reg : RegObj) (s p meta : Val) (tag : String) (effs : List Effect) (e : Expr),
        (reduce (regOn reg tag (.mk effs e)) s (.vmsg tag p meta)).1
          = evalE e (orDefault reg.dflt s)
              (if reg.optPayload then p else .vmsg tag p meta)
              (if reg.optPayload then meta else .vundefined))
  ∧ (∀ (reg : RegObj) (s p meta : Val) (tag : String),
        reduce (regOff reg tag) s (.vmsg tag p meta) = (orDefault reg.dflt s, regOff reg tag))
  ∧ ((funkyRun (funkySeq.take 1)).1 = .vint 0
  ∧ (funkyRun (funkySeq.take 2)).1 = .vint 0
  ∧ (funkyRun (funkySeq.take 3)).1 = .vint 1
  ∧ (funkyRun (funkySeq.take 4)).1 = .vint 2
  ∧ (funkyRun (funkySeq.take 5)).1 = .vint (-3)
  ∧ (funkyRun (funkySeq.take 6)).1 = .vint (-3)
  ∧ (funkyRun (funkySeq.take 7)).1 = .vint (-4)
  ∧ (funkyRun (funkySeq.take 8)).1 = .vint (-4)
  ∧ (funkyRun funkySeq).1 = .vint 2) := by
  refine ⟨?_, ?_, ?_, ?_⟩
  · intro reg s p meta tag effs e hl
    have hl2 : lookupT (setT reg.table tag (Handler.mk [] e)) tag = some (.mk [] e) :=
      lookupT_setT_self reg.table tag (.mk [] e)
    rw [reduce_plain reg s p meta tag effs e hl]
    rw [reduce_plain { reg with table := setT reg.table tag (.mk [] e) } s p meta tag [] e hl2]
    exact ⟨rfl, rfl⟩
  · intro reg s p meta tag effs e
    have hl : lookupT (regOn reg tag (Handler.mk effs e)).table tag = some (.mk effs e) :=
      lookupT_setT_self reg.table tag (.mk effs e)
    rw [reduce_plain (regOn reg tag (.mk effs e)) s p meta tag effs e hl]
    rfl
  · intro reg s p meta tag
    have hl : lookupT (regOff reg tag).table tag = none :=
      lookupT_removeT_self reg.table tag
    exact reduce_none (regOff reg tag) s p meta tag hl
  · refine ⟨?_, ?_, ?_, ?_, ?_, ?_, ?_, ?_, ?_⟩ <;>
      simp [funkyRun, funkySeq, stepR, funkyReg, funkyEffects, createReducerFn, setIfAbsentT,
        lookupT, batchTag, incTagD, decTagD, addTagD, subTagD, tagMsg, payloadMsg, hfun,
        addPayloadH, subPayloadH, reduce, reduceList, orDefault, Val.isUndefined, evalE, numOp,
        applyEffects, applyEffect, setT, removeT]

/-- Witness for C2 at the funky reducer's increment handler: its effects do
not affect the in-flight result, and the returned table carries them. -/
theorem c2_witness :
    lookupT funkyReg.table incTagD
        = some (.mk [.eoff addTagD, .eon subTagD subPayloadH] (.eadd .st (.lit (.vint 1))))
  ∧ ((reduce funkyReg (.vint 0) (.vmsg incTagD .vundefined .vundefined)).1
        = (reduce { funkyReg with
              table := setT funkyReg.table incTagD (.mk [] (.eadd .st (.lit (.vint 1)))) }
            (.vint 0) (.vmsg incTagD .vundefined .vundefined)).1
      ∧ (reduce funkyReg (.vint 0) (.vmsg incTagD .vundefined .vundefined)).2.table
        = applyEffects [.eoff addTagD, .eon subTagD subPayloadH] funkyReg.table) :=
  ⟨rfl, c2_mutation_next_call.1 funkyReg (.vint 0) .vundefined .vundefined incTagD
      [.eoff addTagD, .eon subTagD subPayloadH] (.eadd .st (.lit (.vint 1))) rfl⟩

/-- C8: with `options({payload:false})` every handler invoked by `reduce`
receives the whole message object as its second argument (and `undefined`
third); with `options({payload:true})`, the default, it receives the
payload as second argument and the metadata as third; `options` stores the
flag verbatim; and the options test runs exactly as asserted. -/
theorem c8_options_polarity :
    (∀ (reg : RegObj) (s p meta : Val) (tag : String) (effs : List Effect) (e : Expr),
        lookupT reg.table tag = some (.mk effs e) →
        reg.optPayload = false →
        (reduce reg s (.vmsg tag p meta)).1
          = evalE e (orDefault reg.dflt s) (.vmsg tag p meta) .vundefined)
  ∧ (∀ (reg : RegObj) (s p meta : Val) (tag : String) (effs : List Effect) (e : Expr),
        lookupT reg.table tag = some (.mk effs e) →
        reg.optPayload = true →
        (reduce reg s (.vmsg tag p meta)).1
          = evalE e (orDefault reg.dflt s) p meta)
  ∧ (∀ (reg : RegObj) (b : Bool), (setOptions reg b).optPayload = b)
  ∧ ([opt1.1, opt2.1, opt3.1, opt4.1, opt5.1, opt6.1]
      = [.vint 3, .vint 5, .vint 1, .vint 11, .vint 41, .vint 42]) := by
  refine ⟨?_, ?_, fun reg b => rfl, ?_⟩
  · intro reg s p meta tag effs e hl hp
    rw [reduce_plain reg s p meta tag effs e hl, hp]
    simp
  · intro reg s p meta tag effs e hl hp
    rw [reduce_plain reg s p meta tag effs e hl, hp]
    simp
  · simp [opt1, opt2, opt3, opt4, opt5, opt6, optReg0, optReg1, optReg2, setOptions, regOn,
      createReducerMap, setIfAbsentT, lookupT, batchTag, addTagD, payloadMsg, hfun, fullAddH,
      addPayloadH, reduce, reduceList, orDefault, Val.isUndefined, evalE, numOp, applyEffects,
      setT, removeT]

/-- Witness for C8 at the options test's registry in full-message mode: the
handler gets the whole message. -/
theorem c8_witness :
    lookupT optReg0.table addTagD = some (.mk [] (.eadd .st (.epayload .a2)))
  ∧ optReg0.optPayload = false
  ∧ (reduce optReg0 (.vint 0) (.vmsg addTagD (.vint 3) .vundefined)).1
      = evalE (.eadd .st (.epayload .a2)) (orDefault optReg0.dflt (.vint 0))
          (.vmsg addTagD (.vint 3) .vundefined) .vundefined :=
  ⟨rfl, rfl,
    c8_options_polarity.1 optReg0 (.vint 0) (.vint 3) .vundefined addTagD []
      (.eadd .st (.epayload .a2)) rfl rfl⟩

/-- Reduction with the batch handler on a non-list second argument leaves
the state unchanged. -/
theorem reduce_hbatch_other (reg : RegObj) (s p meta : Val) (tag : String)
    (hl : lookupT reg.table tag = some .hbatch)
    (hp : ∀ msgs : List Val, p = .vlist msgs → False) :
    reduce reg s (.vmsg tag p meta) = (orDefault reg.dflt s, reg) := by
  rw [reduce.eq_2 _ _ _ _ _ hp, hl]
  simp

/-- On the reducer with no handlers and no default state, reducing any
message (batch or unknown) from the absent state yields `undefined` and
leaves the registry untouched; likewise for every message sequence. -/
theorem emptyReducer_aux (n : Nat) :
    (∀ msg : Val, sizeOf msg ≤ n →
        reduce emptyReducer .vundefined msg = (.vundefined, emptyReducer))
  ∧ (∀ l : List Val, sizeOf l ≤ n →
        reduceList emptyReducer .vundefined l = (.vundefined, emptyReducer)) := by
  induction n using Nat.strong_induction_on with
  | _ n ih =>
    constructor
    · intro msg hsz
      cases msg with
      | vint k => exact reduce_other _ _ _ (fun _ _ _ h => by cases h)
      | vstr a => exact reduce_other _ _ _ (fun _ _ _ h => by cases h)
      | vundefined => exact reduce_other _ _ _ (fun _ _ _ h => by cases h)
      | vlist l => exact reduce_other _ _ _ (fun _ _ _ h => by cases h)
      | vmsg tag p meta =>
        by_cases hbt : batchTag = tag
        · have hl : lookupT emptyReducer.table tag = some .hbatch := by
            simp [emptyReducer, createReducerMap, setIfAbsentT, lookupT, hbt]
          cases p with
          | vlist msgs =>
            rw [reduce_batch _ _ _ _ _ rfl hl]
            have hlt : sizeOf msgs < n := by
              have h0 : 1 + sizeOf tag + (1 + sizeOf msgs) + sizeOf meta ≤ n := by
                simpa using hsz
              omega
            exact (ih (sizeOf msgs) hlt).2 msgs le_rfl
          | vint k => exact reduce_hbatch_other _ _ _ _ _ hl (fun _ h => by cases h)
          | vstr a => exact reduce_hbatch_other _ _ _ _ _ hl (fun _ h => by cases h)
          | vundefined => exact reduce_hbatch_other _ _ _ _ _ hl (fun _ h => by cases h)
          | vmsg a b c => exact reduce_hbatch_other _ _ _ _ _ hl (fun _ h => by cases h)
        · have hl : lookupT emptyReducer.table tag = none := by
            simp [emptyReducer, createReducerMap, setIfAbsentT, lookupT, hbt]
          rw [reduce_none _ _ _ _ _ hl]
          rfl
    · intro l hsz
      cases l with
      | nil => rw [reduceList]
      | cons m rest =>
        have h0 : 1 + sizeOf m + sizeOf rest ≤ n := by simpa using hsz
        rw [reduceList]
        rw [(ih (sizeOf m) (by omega)).1 m le_rfl]
        exact (ih (sizeOf rest) (by omega)).2 rest le_rfl

/-- C10: the reducer created with no handlers and no default state is
total — reducing any dispatched message from the absent state returns
`undefined` rather than raising, so the state of a store backed by it
stays `undefined` across any dispatch. -/
theorem c10_empty_total :
    (∀ msg : Val, reduce emptyReducer .vundefined msg = (.vundefined, emptyReducer))
  ∧ (∀ msg : Val, dispatchTo emptyWorld 0 msg = emptyWorld) := by
  have main : ∀ msg : Val, reduce emptyReducer .vundefined msg = (.vundefined, emptyReducer) :=
    fun msg => (emptyReducer_aux (sizeOf msg)).1 msg le_rfl
  refine ⟨main, fun msg => ?_⟩
  simp [dispatchTo, emptyWorld, nth, setNth, main msg]

/-- C4: `bindTo` returns a new creator sharing the tag and transforms with
`BoundTo` association and does not mutate the original: an unassigned
creator's invocation dispatches nothing, the bound copy's invocation
dispatches to its targets; concretely, after `action2()` both stores are
unchanged (16 and -2), and `boundAction2()` halves `store` to 8. -/
theorem c4_bind_non_mutation :
    (∀ (c : Creator) (ts : List Nat),
        (bindTo c ts).tag = c.tag
      ∧ (bindTo c ts).payloadT = c.payloadT
      ∧ (bindTo c ts).metaT = c.metaT
      ∧ (bindTo c ts).assoc = .boundTo ts)
  ∧ (∀ (c : Creator) (w : World) (args : List Val),
        c.assoc = .noAssoc → invoke c w args = (buildMsg c args, w))
  ∧ (∀ (c : Creator) (ts : List Nat) (w : World) (args : List Val),
        invoke (bindTo c ts) w args = (buildMsg c args, dispatchAll w ts (buildMsg c args)))
  ∧ (storeStates mw5 = [.vint 16, .vint (-2)]
      ∧ storeStates mw6 = [.vint 8, .vint (-2)]) := by
  refine ⟨fun c ts => ⟨rfl, rfl, rfl, rfl⟩, ?_, ?_, ?_⟩
  · intro c w args h
    simp [invoke, h]
  · intro c ts w args
    simp [invoke, bindTo, buildMsg]
  · constructor <;>
      simp [mw6, mw5, mw4, mw3, mw2, mw1, mulWorld, act1, act2, act1Both, bact2, assignTo,
        bindTo, invoke, buildMsg, defaultPayloadT, noMetaT, dispatchAll, dispatchTo, nth,
        setNth, mulReg, mulH, divH, createReducerMap, setIfAbsentT, lookupT, batchTag,
        incTagD, decTagD, hfun, reduce, reduceList, orDefault, Val.isUndefined, evalE, numOp,
        applyEffects, storeStates]

/-- Witness for C4: `action2` is unassigned, so invoking it in the world
after the fan-out step returns the Message and leaves the world alone. -/
theorem c4_witness :
    act2.assoc = .noAssoc ∧ invoke act2 mw4 [] = (buildMsg act2 [], mw4) :=
  ⟨rfl, c4_bind_non_mutation.2.1 act2 mw4 [] rfl⟩

/-- C5: `raw(...args)` returns exactly the Message a normal invocation
would construct — for every association state — and performs zero
dispatches (the world component is returned untouched). -/
theorem c5_raw_bypass :
    ∀ (c : Creator) (w : World) (args : List Val),
      rawCall c w args = ((invoke c w args).1, w) := by
  intro c w args
  cases h : c.assoc <;> simp [rawCall, invoke, h]

/-- C6: an invocation of a creator assigned to targets dispatches the one
constructed Message to every target in target-list order — the head target
is fully reduced before the rest — and also returns that Message; on the
doc example, `action()` assigned to `[store, store2]` leaves 16 and -2. -/
theorem c6_assigned_fanout_order :
    (∀ (c : Creator) (ts : List Nat) (w : World) (args : List Val),
        c.assoc = .assignedTo ts →
        invoke c w args = (buildMsg c args, dispatchAll w ts (buildMsg c args)))
  ∧ (∀ (w : World) (t : Nat) (rest : List Nat) (msg : Val),
        dispatchAll w (t :: rest) msg = dispatchAll (dispatchTo w t msg) rest msg)
  ∧ (storeStates mw4 = [.vint 16, .vint (-2)]) := by
  refine ⟨?_, fun w t rest msg => rfl, ?_⟩
  · intro c ts w args h
    simp [invoke, h]
  · simp [mw4, mw3, mw2, mw1, mulWorld, act1, act1Both, assignTo, invoke, buildMsg,
      defaultPayloadT, noMetaT, dispatchAll, dispatchTo, nth, setNth, mulReg, mulH, divH,
      createReducerMap, setIfAbsentT, lookupT, batchTag, incTagD, decTagD, hfun, reduce,
      reduceList, orDefault, Val.isUndefined, evalE, numOp, applyEffects, storeStates]

/-- Witness for C6: the doubly-assigned `action` invoked in the world where
`store` is at 8 dispatches one Message to both stores in order. -/
theorem c6_witness :
    act1Both.assoc = .assignedTo [0, 1]
  ∧ invoke act1Both mw3 []
      = (buildMsg act1Both [], dispatchAll mw3 [0, 1] (buildMsg act1Both [])) :=
  ⟨rfl, c6_assigned_fanout_order.1 act1Both [0, 1] mw3 [] rfl⟩

theorem nth_setNth_self {α : Type} (l : List α) (n : Nat) (b : α) (h : n < l.length) :
    nth (setNth l n b) n = some b := by
  induction l generalizing n with
  | nil => exact absurd h (Nat.not_lt_zero n)
  | cons a rest ih =>
    cases n with
    | zero => rfl
    | succ m => exact ih m (by simpa using h)

/-- Mutating the caller's mapping object is visible through the reducer's
reference: reading the mapping back after an addition sees the addition. -/
theorem heapGet_mapAdd_self (h : Heap) (a : Nat) (k : String) (hd : Handler)
    (ha : a < h.length) :
    heapGet (mapAdd h a k hd) a = setT (heapGet h a) k hd := by
  simp [heapGet, mapAdd, heapSet, nth_setNth_self _ _ _ ha]

/-- Likewise for a deletion. -/
theorem heapGet_mapDelete_self (h : Heap) (a : Nat) (k : String)
    (ha : a < h.length) :
    heapGet (mapDelete h a k) a = removeT (heapGet h a) k := by
  simp [heapGet, mapDelete, heapSet, nth_setNth_self _ _ _ ha]

/-- C9 counterexample: the dynamic-actions test's reducer, constructed from
the empty mapping, behaves differently on the same state and message after
the caller adds a handler to that mapping — mutating the mapping after
construction does change the behavior of subsequent reduce calls, so the
mapping is not copied at construction. -/
theorem c9_counterexample :
    (reduceH heapB dynRef (.vint 0) (tagMsg incTagD)).1 = .vint 1
  ∧ (reduceH heapA dynRef (.vint 0) (tagMsg incTagD)).1 = .vint 0
  ∧ (reduceH heapB dynRef (.vint 0) (tagMsg incTagD)).1
      ≠ (reduceH heapA dynRef (.vint 0) (tagMsg incTagD)).1 := by
  have e1 : (reduceH heapB dynRef (.vint 0) (tagMsg incTagD)).1 = .vint 1 := by
    simp [reduceH, heapB, heapA, heapCtor, heap0, createReducerRef, dynRef, mapAdd, heapGet,
      heapSet, nth, setNth, setIfAbsentT, setT, removeT, lookupT, batchTag, incTagD, tagMsg,
      incHandler, hfun, reduce, orDefault, Val.isUndefined, evalE, numOp, applyEffects]
  have e2 : (reduceH heapA dynRef (.vint 0) (tagMsg incTagD)).1 = .vint 0 := by
    simp [reduceH, heapA, heapCtor, heap0, createReducerRef, dynRef, heapGet, heapSet, nth,
      setNth, setIfAbsentT, lookupT, batchTag, incTagD, tagMsg, reduce, orDefault,
      Val.isUndefined]
  refine ⟨e1, e2, ?_⟩
  rw [e1, e2]
  simp

/-- C9 amended: the registry holds the construction mapping by reference —
after the caller adds an entry to the mapping, subsequent reduce calls on
the constructed reducer route through the added handler; after the caller
deletes an entry, they no longer route; and the dynamic-actions test's
state sequence is 1, 2, 3, then 3, 3 after the deletion. -/
theorem c9_reference_visibility :
    (∀ (h : Heap) (a : Nat) (d s p meta : Val) (tag : String)
        (effs : List Effect) (e : Expr),
        a < h.length →
        (reduceH (mapAdd h a tag (.mk effs e)) { addr := a, dflt := d } s
            (.vmsg tag p meta)).1
          = evalE e (orDefault d s) p meta)
  ∧ (∀ (h : Heap) (a : Nat) (d s p meta : Val) (tag : String),
        a < h.length →
        (reduceH (mapDelete h a tag) { addr := a, dflt := d } s (.vmsg tag p meta)).1
          = orDefault d s)
  ∧ ([dyn1.1, dyn2.1, dyn3.1, dyn4.1, dyn5.1]
      = [.vint 1, .vint 2, .vint 3, .vint 3, .vint 3]) := by
  refine ⟨?_, ?_, ?_⟩
  · intro h a d s p meta tag effs e ha
    have hg := heapGet_mapAdd_self h a tag (.mk effs e) ha
    simp only [reduceH, hg]
    rw [reduce_plain _ s p meta tag effs e (lookupT_setT_self (heapGet h a) tag (.mk effs e))]
    rfl
  · intro h a d s p meta tag ha
    have hg := heapGet_mapDelete_self h a tag ha
    simp only [reduceH, hg]
    rw [reduce_none _ s p meta tag (lookupT_removeT_self (heapGet h a) tag)]
  · simp [dyn1, dyn2, dyn3, dyn4, dyn5, heapC, heapB, heapA, heapCtor, heap0, dynRef,
      createReducerRef, mapAdd, mapDelete, reduceH, heapGet, heapSet, nth, setNth,
      setIfAbsentT, setT, removeT, lookupT, batchTag, incTagD, tagMsg, incHandler, hfun,
      reduce, orDefault, Val.isUndefined, evalE, numOp, applyEffects]

/-- Witness for C9's amended statement: adding the inc handler to the
mapping after construction makes the constructed reducer increment. -/
theorem c9_witness :
    0 < heapA.length
  ∧ (reduceH (mapAdd heapA 0 incTagD (.mk [] (.eadd .st (.lit (.vint 1)))))
        { addr := 0, dflt := .vint 0 } (.vint 0) (.vmsg incTagD .vundefined .vundefined)).1
      = evalE (.eadd .st (.lit (.vint 1))) (orDefault (.vint 0) (.vint 0)) .vundefined .vundefined :=
  ⟨Nat.zero_lt_one,
    c9_reference_visibility.1 heapA 0 (.vint 0) (.vint 0) .vundefined .vundefined incTagD []
      (.eadd .st (.lit (.vint 1))) Nat.zero_lt_one⟩

theorem digitVal_digitChar (n : Nat) (h : n < 10) : digitVal (digitChar n) = n := by
  interval_cases n <;> decide

theorem isDigit_digitChar (n : Nat) (h : n < 10) : (digitChar n).isDigit = true := by
  interval_cases n <;> decide

theorem natDigits_all_digit (n : Nat) : ∀ c ∈ natDigits n, c.isDigit = true := by
  induction n using Nat.strong_induction_on with
  | _ n ih =>
    rw [natDigits]
    by_cases h : n < 10
    · simp only [if_pos h, List.mem_singleton]
      intro c hc
      rw [hc]
      exact isDigit_digitChar n h
    · simp only [if_neg h]
      intro c hc
      rcases List.mem_append.mp hc with h1 | h2
      · exact ih (n / 10) (Nat.div_lt_self (by omega) (by omega)) c h1
      · rw [List.mem_singleton.mp h2]
        exact isDigit_digitChar (n % 10) (Nat.mod_lt n (by omega))

theorem digitsToNat_append (l : List Char) (c : Char) :
    digitsToNat (l ++ [c]) = 10 * digitsToNat l + digitVal c := by
  simp [digitsToNat, List.foldl_append]

theorem digitsToNat_natDigits (n : Nat) : digitsToNat (natDigits n) = n := by
  induction n using Nat.strong_induction_on with
  | _ n ih =>
    rw [natDigits]
    by_cases h : n < 10
    · simp only [if_pos h, digitsToNat, List.foldl_cons, List.foldl_nil]
      rw [Nat.mul_zero, Nat.zero_add, digitVal_digitChar n h]
    · rw [if_neg h, digitsToNat_append,
        ih (n / 10) (Nat.div_lt_self (by omega) (by omega)),
        digitVal_digitChar (n % 10) (Nat.mod_lt n (by omega))]
      omega

theorem takeWhile_append_eq {α : Type} (p : α → Bool) (l1 : List α) (x : α) (l2 : List α)
    (h1 : ∀ a ∈ l1, p a = true) (h2 : p x = false) :
    (l1 ++ x :: l2).takeWhile p = l1 := by
  induction l1 with
  | nil => simp [List.takeWhile_cons, h2]
  | cons a rest ih =>
    have ha : p a = true := h1 a (by simp)
    simp [List.takeWhile_cons, ha, ih (fun b hb => h1 b (by simp [hb]))]

/-- The sequence number is recoverable from a generated tag, so the tag
determines it. -/
theorem tagNum_mkGenTag (n : Nat) (d : Option String) : tagNum (mkGenTag n d) = n := by
  have hd : Char.isDigit ']' = false := by decide
  cases d with
  | none =>
    show digitsToNat
        ((('[' :: (natDigits n ++ ']' :: [])).drop 1).takeWhile Char.isDigit) = n
    rw [List.drop_succ_cons, List.drop_zero,
      takeWhile_append_eq Char.isDigit (natDigits n) ']' [] (natDigits_all_digit n) hd]
    exact digitsToNat_natDigits n
  | some s =>
    show digitsToNat
        ((('[' :: (natDigits n ++ ']' :: (' ' :: s.data))).drop 1).takeWhile Char.isDigit) = n
    rw [List.drop_succ_cons, List.drop_zero,
      takeWhile_append_eq Char.isDigit (natDigits n) ']' (' ' :: s.data)
        (natDigits_all_digit n) hd]
    exact digitsToNat_natDigits n

theorem mem_genTags_num (c : Nat) (descs : List (Option String)) (s : String)
    (h : s ∈ genTags c descs) : c + 1 ≤ tagNum s := by
  induction descs generalizing c with
  | nil => cases h
  | cons d rest ih =>
    rcases List.mem_cons.mp h with h1 | h2
    · rw [h1, tagNum_mkGenTag]
    · have := ih (c + 1) h2
      omega

/-- Generated tags embed strictly increasing sequence numbers, so any run
of generated tags is collision-free. -/
theorem genTags_pairwise (c : Nat) (descs : List (Option String)) :
    (genTags c descs).Pairwise (fun a b => a ≠ b) := by
  induction descs generalizing c with
  | nil => exact List.Pairwise.nil
  | cons d rest ih =>
    refine List.Pairwise.cons ?_ (ih (c + 1))
    intro b hb heq
    have h2 := mem_genTags_num (c + 1) rest b hb
    have h1 : tagNum b = c + 1 := by rw [← heq, tagNum_mkGenTag]
    omega

theorem createActionTag_nonserial (d : Option String) (ts : TypesState)
    (h : nonSerialReq d) :
    createActionTag d ts
      = (.ok (mkGenTag (ts.counter + 1) d),
         { used := mkGenTag (ts.counter + 1) d :: ts.used, counter := ts.counter + 1 }) := by
  cases d with
  | none => rfl
  | some s =>
    have hs : isSerializable s = false := h
    simp [createActionTag, hs]

theorem createMany_nonserial (descs : List (Option String)) (ts : TypesState)
    (h : ∀ x ∈ descs, nonSerialReq x) :
    (createMany descs ts).1 = (genTags ts.counter descs).map CResult.ok
    ∧ (createMany descs ts).2.counter = ts.counter + descs.length := by
  induction descs generalizing ts with
  | nil => exact ⟨rfl, rfl⟩
  | cons d rest ih =>
    have hd := createActionTag_nonserial d ts (h d (by simp))
    have hr := ih (createActionTag d ts).2 (fun x hx => h x (List.mem_cons_of_mem d hx))
    have hc : (createActionTag d ts).2.counter = ts.counter + 1 := by rw [hd]
    constructor
    · show (createActionTag d ts).1 :: (createMany rest (createActionTag d ts).2).1
        = (genTags ts.counter (d :: rest)).map CResult.ok
      rw [genTags, List.map_cons, hr.1, hc]
      rw [hd]
    · show (createMany rest (createActionTag d ts).2).2.counter
        = ts.counter + (d :: rest).length
      rw [hr.2, hc, List.length_cons]
      omega

/-- C3: constructing a creator whose serializable description is already
registered fails with a DuplicateTagError and leaves the Tag Registry
untouched; a fresh serializable description becomes the tag verbatim; and
any number of anonymous or non-serializable constructions succeed with
tags synthesized from the increasing sequence number, pairwise distinct. -/
theorem c3_tag_uniqueness :
    (∀ (d : String) (ts : TypesState),
        isSerializable d = true → d ∈ ts.used →
        createActionTag (some d) ts = (.dupError d, ts))
  ∧ (∀ (d : String) (ts : TypesState),
        isSerializable d = true → d ∉ ts.used →
        createActionTag (some d) ts = (.ok d, { ts with used := d :: ts.used }))
  ∧ (∀ (descs : List (Option String)) (ts : TypesState),
        (∀ x ∈ descs, nonSerialReq x) →
        (createMany descs ts).1 = (genTags ts.counter descs).map CResult.ok
        ∧ (genTags ts.counter descs).Pairwise (fun a b => a ≠ b)) := by
  refine ⟨?_, ?_, ?_⟩
  · intro d ts h1 h2
    simp [createActionTag, h1, h2]
  · intro d ts h1 h2
    simp [createActionTag, h1, h2]
  · intro descs ts h
    exact ⟨(createMany_nonserial descs ts h).1, genTags_pairwise ts.counter descs⟩

/-- Witness for C3: a second creator with the serializable description
"DUP" fails and leaves the registry unchanged, while a run of an anonymous
and a non-serializable construction yields the distinct generated tags. -/
theorem c3_witness :
    isSerializable "DUP" = true
  ∧ "DUP" ∈ (TypesState.mk ["DUP"] 0).used
  ∧ createActionTag (some "DUP") (TypesState.mk ["DUP"] 0)
      = (.dupError "DUP", TypesState.mk ["DUP"] 0)
  ∧ (∀ x ∈ ([none, some "Add todo"] : List (Option String)), nonSerialReq x)
  ∧ (createMany [none, some "Add todo"] initialTypes).1
      = (genTags initialTypes.counter [none, some "Add todo"]).map CResult.ok
  ∧ (genTags initialTypes.counter [none, some "Add todo"]).Pairwise
      (fun a b => a ≠ b) := by
  have h1 : isSerializable "DUP" = true := by decide
  have h2 : "DUP" ∈ (TypesState.mk ["DUP"] 0).used := by simp
  have hns : ∀ x ∈ ([none, some "Add todo"] : List (Option String)), nonSerialReq x := by
    intro x hx
    rcases List.mem_cons.mp hx with h | h
    · rw [h]; trivial
    · rw [List.mem_singleton.mp h]
      show isSerializable "Add todo" = false
      decide
  have hrun := c3_tag_uniqueness.2.2 [none, some "Add todo"] initialTypes hns
  exact ⟨h1, h2, c3_tag_uniqueness.1 "DUP" (TypesState.mk ["DUP"] 0) h1 h2,
    hns, hrun.1, hrun.2⟩

end ReduxAct
